import Mathlib

/-!
Verification of the kinematic mover, player state machine and input layer of
the `platformer-test` repository.

The definitions below are shallow embeddings of the Rust source:

* `src/physics.rs` — the swept kinematic mover `move_bodies` (per body), its
  sub-step helper `calculate_delta_step`, and the `CollisionSide` bitflags.
* `src/player.rs` — `update_player` (gravity, wall-slide clamp, horizontal
  acceleration, jump bookkeeping, jump/wall-jump execution) and
  `set_player_state`.
* `src/input_mapper.rs` / `src/input_binding.rs` — `TriggerRecord` and the
  primary/secondary action combination of `upload_input` / `action_value`.

`f32` scalars are modelled as exact rationals (`ℚ`).  The one genuinely
irrational operation, `Vec2::length` used by `calculate_delta_step` to
normalise a sub-step, is modelled by the computable under-approximation
`ratSqrt` (a fixed-point `Nat.sqrt`, standing in for the approximate
hardware square root); comparisons of two lengths are translated to the
exactly equivalent comparisons of squared lengths.  Durations
(`std::time::Duration`) are modelled as rational numbers of seconds.
-/

set_option maxRecDepth 8000

namespace Platformer

/-! ### Geometry: `glam::Vec2` over ℚ -/

/-- A 2-dimensional vector, modelling `glam::Vec2` with exact rational
coordinates. -/
structure Vec2 where
  x : ℚ
  y : ℚ
deriving DecidableEq, Repr

def Vec2.add (a b : Vec2) : Vec2 := ⟨a.x + b.x, a.y + b.y⟩

def Vec2.sub (a b : Vec2) : Vec2 := ⟨a.x - b.x, a.y - b.y⟩

/-- Componentwise scalar multiplication, `velocity * delta_time`. -/
def Vec2.smul (c : ℚ) (v : Vec2) : Vec2 := ⟨c * v.x, c * v.y⟩

/-- `Vec2::ZERO`. -/
def Vec2.zero : Vec2 := ⟨0, 0⟩

instance : Add Vec2 := ⟨Vec2.add⟩
instance : Sub Vec2 := ⟨Vec2.sub⟩
instance : SMul ℚ Vec2 := ⟨Vec2.smul⟩

/-- The squared euclidean length `v.x² + v.y²`; `Vec2::length` is the square
root of this quantity. -/
def Vec2.lengthSq (v : Vec2) : ℚ := v.x * v.x + v.y * v.y

@[simp] theorem Vec2.add_def (a b : Vec2) : a + b = ⟨a.x + b.x, a.y + b.y⟩ := rfl

@[simp] theorem Vec2.sub_def (a b : Vec2) : a - b = ⟨a.x - b.x, a.y - b.y⟩ := rfl

@[simp] theorem Vec2.smul_def (c : ℚ) (v : Vec2) : c • v = ⟨c * v.x, c * v.y⟩ := rfl

theorem Vec2.lengthSq_nonneg (v : Vec2) : 0 ≤ v.lengthSq := by
  have hx := mul_self_nonneg v.x
  have hy := mul_self_nonneg v.y
  unfold Vec2.lengthSq
  linarith

theorem Vec2.lengthSq_smul (c : ℚ) (v : Vec2) :
    (c • v).lengthSq = c ^ 2 * v.lengthSq := by
  simp only [Vec2.smul_def, Vec2.lengthSq]
  ring

theorem Vec2.lengthSq_eq_zero {v : Vec2} : v.lengthSq = 0 ↔ v = Vec2.zero := by
  unfold Vec2.lengthSq Vec2.zero
  constructor
  · intro h
    have hx := mul_self_nonneg v.x
    have hy := mul_self_nonneg v.y
    have hx0 : v.x * v.x = 0 := by linarith
    have hy0 : v.y * v.y = 0 := by linarith
    have : v.x = 0 := by
      rcases mul_self_eq_zero.mp hx0 with h
      exact h
    have : v.y = 0 := by
      rcases mul_self_eq_zero.mp hy0 with h
      exact h
    cases v
    simp_all
  · intro h
    subst h
    norm_num

theorem Vec2.lengthSq_pos {v : Vec2} (h : v ≠ Vec2.zero) : 0 < v.lengthSq := by
  rcases lt_or_eq_of_le (Vec2.lengthSq_nonneg v) with h1 | h1
  · exact h1
  · exact absurd (Vec2.lengthSq_eq_zero.mp h1.symm) h

/-! ### A computable model of the `f32` square root -/

/-- A computable under-approximation of the square root on ℚ, modelling the
(approximate) `f32::sqrt` used by `Vec2::length`.  For `q = a/b` in lowest
terms it returns `⌊sqrt(a·b·10¹²)⌋ / (b·10⁶)`, which satisfies
`ratSqrt q ≤ √q` and is exact on squares of decimal rationals. -/
def ratSqrt (q : ℚ) : ℚ :=
  (Nat.sqrt (q.num.toNat * q.den * 10 ^ 12) : ℚ) / ((q.den : ℚ) * 10 ^ 6)

theorem ratSqrt_nonneg (q : ℚ) : 0 ≤ ratSqrt q := by
  unfold ratSqrt
  positivity

theorem ratSqrt_pos {q : ℚ} (h : 0 < q) : 0 < ratSqrt q := by
  unfold ratSqrt
  have hnum : 0 < q.num := Rat.num_pos.mpr h
  have h1 : 1 ≤ q.num.toNat := by omega
  have hden : 0 < q.den := q.pos
  have harg : 10 ^ 12 ≤ q.num.toNat * q.den * 10 ^ 12 := by
    have : 1 * 1 * 10 ^ 12 ≤ q.num.toNat * q.den * 10 ^ 12 := by
      apply Nat.mul_le_mul_right
      exact Nat.mul_le_mul h1 hden
    simpa using this
  have hs : 0 < Nat.sqrt (q.num.toNat * q.den * 10 ^ 12) := by
    have : 0 < Nat.sqrt (10 ^ 12) := by
      rw [Nat.sqrt_pos]
      positivity
    exact lt_of_lt_of_le this (Nat.sqrt_le_sqrt harg)
  apply div_pos
  · exact_mod_cast hs
  · positivity

/-- The defining property of the under-approximation: its square never
exceeds the radicand. -/
theorem ratSqrt_sq_le {q : ℚ} (h : 0 ≤ q) : ratSqrt q * ratSqrt q ≤ q := by
  unfold ratSqrt
  have hden : (0:ℚ) < (q.den : ℚ) := by exact_mod_cast q.den_pos
  rw [div_mul_div_comm, div_le_iff₀ (by positivity)]
  have hsq : (Nat.sqrt (q.num.toNat * q.den * 10 ^ 12) : ℚ) *
      (Nat.sqrt (q.num.toNat * q.den * 10 ^ 12) : ℚ) ≤
      ((q.num.toNat * q.den * 10 ^ 12 : ℕ) : ℚ) := by
    exact_mod_cast Nat.sqrt_le (q.num.toNat * q.den * 10 ^ 12)
  refine le_trans hsq ?_
  have hnum : ((q.num.toNat : ℕ) : ℚ) = (q.num : ℚ) := by
    exact_mod_cast Int.toNat_of_nonneg (Rat.num_nonneg.mpr h)
  have hq : (q.num : ℚ) = q * (q.den : ℚ) :=
    (div_eq_iff hden.ne').mp (Rat.num_div_den q)
  push_cast
  rw [hnum, hq]
  ring_nf
  exact le_refl _

end Platformer

namespace Platformer

/-! ### The swept kinematic mover, `src/physics.rs` lines 332-446 -/

/-- The `CollisionSide` bitflags of `physics.rs` (lines 86-94), modelled as a
structure of four booleans. -/
structure CollisionSide where
  up : Bool
  down : Bool
  left : Bool
  right : Bool
deriving DecidableEq, Repr

def CollisionSide.empty : CollisionSide := ⟨false, false, false, false⟩

def CollisionSide.UP : CollisionSide := ⟨true, false, false, false⟩

def CollisionSide.DOWN : CollisionSide := ⟨false, true, false, false⟩

def CollisionSide.LEFT : CollisionSide := ⟨false, false, true, false⟩

def CollisionSide.RIGHT : CollisionSide := ⟨false, false, false, true⟩

/-- Bitwise or (`|=`) of two `CollisionSide` values. -/
def CollisionSide.union (a b : CollisionSide) : CollisionSide :=
  ⟨a.up || b.up, a.down || b.down, a.left || b.left, a.right || b.right⟩

/-- Outcome of moving a single kinematic body in `move_bodies`.  `reported`
is `some sides` when control reaches the `KinematicCollisions` insert at the
bottom of the per-body loop, and `none` on the paths (`continue` for a zero
delta, `return` for the both-axes corner case) that leave the function
without inserting the component. -/
structure MoveResult where
  position : Vec2
  velocity : Vec2
  reported : Option CollisionSide
deriving DecidableEq, Repr

/-- `MAX_STEP_LENGTH` from `calculate_delta_step` (`physics.rs` line 371). -/
def MAX_STEP_LENGTH : ℚ := 1/10

/-- `calculate_delta_step` (`physics.rs` lines 370-378).  The source compares
`delta.length() <= MAX_STEP_LENGTH`, which is exactly equivalent to the
squared comparison used here; the normalisation `delta / delta.length() *
MAX_STEP_LENGTH` divides by the (approximate) square root, modelled by
`ratSqrt`. -/
def calculate_delta_step (delta : Vec2) : Vec2 :=
  if delta.lengthSq ≤ MAX_STEP_LENGTH * MAX_STEP_LENGTH then delta
  else (MAX_STEP_LENGTH / ratSqrt delta.lengthSq) • delta

/-- The `while to_move.length() >= step.length()` sweep of `move_bodies`
(`physics.rs` lines 383-440), with the loop condition translated to the
equivalent squared-length comparison.  The recursion is fuelled; `none`
means the fuel ran out (never the case for sufficient fuel, see
`move_bodies_terminates`). -/
def move_bodies_loop (is_colliding : Vec2 → Bool) :
    ℕ → Vec2 → Vec2 → Vec2 → Vec2 → CollisionSide → Option MoveResult
  | 0, _, _, _, _, _ => none
  | fuel+1, position, velocity, to_move, step, collisions =>
    if ¬ (step.lengthSq ≤ to_move.lengthSq) then
      -- while condition false: sweep over, insert the accumulated sides
      some ⟨position, velocity, some collisions⟩
    else
      -- last_position := position; position += step; to_move -= step;
      -- `position` below stands for `last_position`, `position + step` for the
      -- stepped position, and `to_move - step` for the new remaining delta.
      if is_colliding (position + step) then
        -- Move one axis at a time to figure out where/how the collision happened
        if ! is_colliding ⟨position.x, (position + step).y⟩ then
          -- Not colliding when moved back on the X axis: blocked by a wall.
          -- Mark LEFT/RIGHT by sign of velocity.x, zero velocity.x and
          -- to_move.x, then break (insert) if no movement remains, else
          -- recompute the step and continue.
          if (⟨0, (to_move - step).y⟩ : Vec2) = Vec2.zero then
            some ⟨⟨position.x, (position + step).y⟩, ⟨0, velocity.y⟩,
              some (collisions.union
                (if 0 < velocity.x then CollisionSide.RIGHT else CollisionSide.LEFT))⟩
          else
            move_bodies_loop is_colliding fuel ⟨position.x, (position + step).y⟩
              ⟨0, velocity.y⟩ ⟨0, (to_move - step).y⟩
              (calculate_delta_step ⟨0, (to_move - step).y⟩)
              (collisions.union
                (if 0 < velocity.x then CollisionSide.RIGHT else CollisionSide.LEFT))
        else if ! is_colliding ⟨position.x + step.x, position.y⟩ then
          -- Not colliding when moved back on the Y axis: blocked by the
          -- ground/ceiling.  Mark UP/DOWN by sign of velocity.y, zero
          -- velocity.y and to_move.y.
          if (⟨(to_move - step).x, 0⟩ : Vec2) = Vec2.zero then
            some ⟨⟨position.x + step.x, position.y⟩, ⟨velocity.x, 0⟩,
              some (collisions.union
                (if 0 < velocity.y then CollisionSide.UP else CollisionSide.DOWN))⟩
          else
            move_bodies_loop is_colliding fuel ⟨position.x + step.x, position.y⟩
              ⟨velocity.x, 0⟩ ⟨(to_move - step).x, 0⟩
              (calculate_delta_step ⟨(to_move - step).x, 0⟩)
              (collisions.union
                (if 0 < velocity.y then CollisionSide.UP else CollisionSide.DOWN))
        else
          -- Colliding in both axes; Stop all movement.  The source `return`s
          -- out of `move_bodies` here, before the `KinematicCollisions`
          -- insert, so nothing is reported for this invocation.
          some ⟨position, Vec2.zero, none⟩
      else
        move_bodies_loop is_colliding fuel (position + step) velocity
          (to_move - step) step collisions

/-- The per-body work of `move_bodies` (`physics.rs` lines 363-445):
`to_move = velocity * delta_time`, the zero-delta `continue` (which skips
the `KinematicCollisions` insert, hence `reported = none`), and the
sub-stepping sweep. -/
def move_bodies (is_colliding : Vec2 → Bool) (fuel : ℕ)
    (position velocity : Vec2) (delta_time : ℚ) : Option MoveResult :=
  if (delta_time • velocity : Vec2).x = 0 ∧ (delta_time • velocity : Vec2).y = 0 then
    some ⟨position, velocity, none⟩
  else
    move_bodies_loop is_colliding fuel position velocity (delta_time • velocity)
      (calculate_delta_step (delta_time • velocity)) CollisionSide.empty

end Platformer

namespace Platformer

/-! ### C1: no-tunneling invariant of the sweep -/

/-- Loop invariant: if the sweep starts at a non-colliding position, every
position it can return is non-colliding.  Each collision resolution either
continues from a position that was just checked to be free, or (in the
both-axes corner case) restores the position the iteration started from. -/
theorem move_bodies_loop_no_tunnel (is_colliding : Vec2 → Bool) :
    ∀ (n : ℕ) (position velocity to_move step : Vec2) (collisions : CollisionSide)
      (r : MoveResult), is_colliding position = false →
      move_bodies_loop is_colliding n position velocity to_move step collisions = some r →
      is_colliding r.position = false := by
  intro n
  induction n with
  | zero =>
    intro p v t s c r hp heq
    simp [move_bodies_loop] at heq
  | succ n ih =>
    intro p v t s c r hp heq
    rw [move_bodies_loop] at heq
    by_cases h1 : ¬ (s.lengthSq ≤ t.lengthSq)
    · rw [if_pos h1] at heq
      cases heq
      exact hp
    · rw [if_neg h1] at heq
      by_cases h2 : is_colliding (p + s) = true
      · rw [if_pos h2] at heq
        by_cases h3 : (! is_colliding ⟨p.x, (p + s).y⟩) = true
        · rw [if_pos h3] at heq
          have hX : is_colliding ⟨p.x, (p + s).y⟩ = false := by
            simpa using h3
          by_cases h4 : (⟨0, (t - s).y⟩ : Vec2) = Vec2.zero
          · rw [if_pos h4] at heq
            cases heq
            exact hX
          · rw [if_neg h4] at heq
            exact ih _ _ _ _ _ _ hX heq
        · rw [if_neg h3] at heq
          by_cases h5 : (! is_colliding ⟨p.x + s.x, p.y⟩) = true
          · rw [if_pos h5] at heq
            have hY : is_colliding ⟨p.x + s.x, p.y⟩ = false := by
              simpa using h5
            by_cases h6 : (⟨(t - s).x, 0⟩ : Vec2) = Vec2.zero
            · rw [if_pos h6] at heq
              cases heq
              exact hY
            · rw [if_neg h6] at heq
              exact ih _ _ _ _ _ _ hY heq
          · rw [if_neg h5] at heq
            cases heq
            exact hp
      · rw [if_neg h2] at heq
        have h2' : is_colliding (p + s) = false := by
          simpa using h2
        exact ih _ _ _ _ _ _ h2' heq

/-- C1 — No-tunneling / non-collision preservation: for every body, desired
displacement (any `velocity` and `delta_time`) and collision predicate, if
the body does not collide at its starting position, then it does not collide
at the final position returned by the mover (post-move overlap implies
pre-move overlap). -/
theorem move_bodies_no_tunnel (is_colliding : Vec2 → Bool) (fuel : ℕ)
    (position velocity : Vec2) (delta_time : ℚ)
    (h : is_colliding position = false) (r : MoveResult)
    (hr : move_bodies is_colliding fuel position velocity delta_time = some r) :
    is_colliding r.position = false := by
  unfold move_bodies at hr
  by_cases h0 : (delta_time • velocity : Vec2).x = 0 ∧ (delta_time • velocity : Vec2).y = 0
  · rw [if_pos h0] at hr
    cases hr
    exact h
  · rw [if_neg h0] at hr
    exact move_bodies_loop_no_tunnel is_colliding fuel position velocity _ _ _ r h hr

/-- Witness for C1 at a concrete input: trivial never-colliding predicate,
body at the origin, velocity `(0, -1/20)`, `dt = 1`. -/
theorem move_bodies_no_tunnel_witness :
    (fun (_ : Vec2) => false)
      (MoveResult.position ⟨⟨0, -(1:ℚ)/20⟩, ⟨0, -(1:ℚ)/20⟩, some CollisionSide.empty⟩) =
      false :=
  move_bodies_no_tunnel (fun _ => false) 3 ⟨0, 0⟩ ⟨0, -(1:ℚ)/20⟩ 1 rfl
    ⟨⟨0, -(1:ℚ)/20⟩, ⟨0, -(1:ℚ)/20⟩, some CollisionSide.empty⟩
    (by
      norm_num [move_bodies, move_bodies_loop, calculate_delta_step,
        Vec2.lengthSq, MAX_STEP_LENGTH, Vec2.zero, CollisionSide.empty])

end Platformer

namespace Platformer

/-! ### C2: the both-axes corner case -/

/-- Behaviour of one sweep iteration when the stepped position collides and
both single-axis rollbacks still collide: the full pre-step position is
restored, the whole velocity is zeroed, sub-stepping stops, and the function
returns with `reported = none` — the accumulated `CollisionSide` value is
discarded because the source `return`s before the `KinematicCollisions`
insert (and thereby also skips the remaining bodies of the query). -/
theorem move_bodies_loop_corner (is_colliding : Vec2 → Bool) (fuel : ℕ)
    (position velocity to_move step : Vec2) (collisions : CollisionSide)
    (hcond : step.lengthSq ≤ to_move.lengthSq)
    (h1 : is_colliding (position + step) = true)
    (h2 : is_colliding ⟨position.x, (position + step).y⟩ = true)
    (h3 : is_colliding ⟨position.x + step.x, position.y⟩ = true) :
    move_bodies_loop is_colliding (fuel+1) position velocity to_move step collisions =
      some ⟨position, Vec2.zero, none⟩ := by
  rw [move_bodies_loop]
  rw [if_neg (not_not_intro hcond), if_pos h1]
  rw [if_neg (by simp only [h2, Bool.not_true]; simp),
    if_neg (by simp only [h3, Bool.not_true]; simp)]

/-- A collision predicate that is free exactly at the origin; every candidate
position of the first sub-step below collides, including both single-axis
rollbacks. -/
def corner_predicate : Vec2 → Bool :=
  fun p => ! decide (p = (⟨0, 0⟩ : Vec2))

/-- C2, evaluated at the failing input: a body at the origin moving
diagonally with `velocity = (1/20, 1/20)`, `dt = 1`, into the
`corner_predicate` geometry.  The mover restores the pre-step position and
zeroes the velocity as the claim states, but `reported = none`: the
both-sides `CollisionSide` value the claim says is reported for this
invocation is discarded by the early `return`. -/
theorem move_bodies_corner_eval :
    move_bodies corner_predicate 3 ⟨0, 0⟩ ⟨(1:ℚ)/20, (1:ℚ)/20⟩ 1 =
      some ⟨⟨0, 0⟩, Vec2.zero, none⟩ ∧
    (none : Option CollisionSide) ≠
      some (CollisionSide.union CollisionSide.RIGHT CollisionSide.UP) := by
  constructor
  · norm_num [move_bodies, move_bodies_loop, calculate_delta_step, corner_predicate,
      Vec2.lengthSq, MAX_STEP_LENGTH, Vec2.zero, CollisionSide.empty]
  · simp

/-! ### C5: zero desired displacement -/

/-- Amended C5 — with a zero desired delta the mover leaves position and
velocity unchanged, but does not report an empty `CollisionSide` set: the
source `continue`s before the `KinematicCollisions` insert, so nothing at
all is reported for this invocation (`reported = none`) and the component
keeps its value from the previous invocation. -/
theorem move_bodies_zero_delta (is_colliding : Vec2 → Bool) (fuel : ℕ)
    (position velocity : Vec2) (delta_time : ℚ)
    (hx : (delta_time • velocity : Vec2).x = 0)
    (hy : (delta_time • velocity : Vec2).y = 0) :
    move_bodies is_colliding fuel position velocity delta_time =
      some ⟨position, velocity, none⟩ := by
  unfold move_bodies
  rw [if_pos ⟨hx, hy⟩]

/-- Witness for the amended C5 at a concrete input. -/
theorem move_bodies_zero_delta_witness :
    move_bodies (fun _ => true) 5 ⟨3, 4⟩ ⟨0, 0⟩ ((1:ℚ)/60) =
      some ⟨⟨3, 4⟩, ⟨0, 0⟩, none⟩ :=
  move_bodies_zero_delta (fun _ => true) 5 ⟨3, 4⟩ ⟨0, 0⟩ ((1:ℚ)/60)
    (by norm_num) (by norm_num)

/-- Counterexample to C5 as stated: at a zero desired delta the mover
reports nothing (`reported = none`), which is not the claimed empty
`CollisionSide` set — the `KinematicCollisions` component simply keeps
whatever the previous invocation stored. -/
theorem move_bodies_zero_delta_cex :
    move_bodies (fun _ => false) 1 ⟨3, 4⟩ ⟨0, 0⟩ ((1:ℚ)/60) =
      some ⟨⟨3, 4⟩, ⟨0, 0⟩, none⟩ ∧
    (none : Option CollisionSide) ≠ some CollisionSide.empty := by
  constructor
  · norm_num [move_bodies]
  · simp

end Platformer

namespace Platformer

/-! ### C6: termination of the sweep -/

theorem Vec2.eq_zero_iff (v : Vec2) : v = Vec2.zero ↔ v.x = 0 ∧ v.y = 0 := by
  cases v
  simp [Vec2.zero]

theorem Vec2.one_smul (v : Vec2) : (1:ℚ) • v = v := by
  cases v
  simp

theorem Vec2.smul_smul (a b : ℚ) (v : Vec2) : a • (b • v) = (a * b) • v := by
  cases v
  simp
  constructor <;> ring

theorem Vec2.smul_sub_self (t : ℚ) (s : Vec2) : t • s - s = (t - 1) • s := by
  cases s
  simp
  constructor <;> ring

theorem Vec2.smul_eq_zero_iff (c : ℚ) (v : Vec2) :
    c • v = Vec2.zero ↔ c = 0 ∨ v = Vec2.zero := by
  cases v with
  | mk x y =>
    simp [Vec2.zero, mul_eq_zero]
    rcases eq_or_ne c 0 with h | h
    · simp [h]
    · simp [h]

/-- If the remaining delta exceeds one tenth in length (in squared terms) and
a scalar multiple of it fits inside `q`, then after subtracting one sub-step
the remainder fits inside `q - 1/10`.  Stated on squares; proved by passing
to real square roots. -/
theorem step_decrease {t S q : ℚ} (ht : 1 ≤ t) (hS : 1/100 ≤ S) (hq : 0 ≤ q)
    (h : t^2 * S ≤ q^2) : (t-1)^2 * S ≤ (q - 1/10)^2 := by
  have hSr : (1:ℝ)/100 ≤ (S : ℝ) := by
    have := (Rat.cast_le (K := ℝ)).mpr hS
    push_cast at this
    exact this
  have htr : (1:ℝ) ≤ (t : ℝ) := by exact_mod_cast ht
  have hqr : (0:ℝ) ≤ (q : ℝ) := by exact_mod_cast hq
  have hr : ((t:ℝ))^2 * (S:ℝ) ≤ ((q:ℝ))^2 := by exact_mod_cast h
  have hgoal : (((t:ℝ)) - 1)^2 * (S:ℝ) ≤ (((q:ℝ)) - 1/10)^2 := by
    have hS0 : (0:ℝ) ≤ (S:ℝ) := by linarith
    have hx0 : 0 ≤ Real.sqrt (S:ℝ) := Real.sqrt_nonneg _
    have hx2 : Real.sqrt (S:ℝ) ^ 2 = (S:ℝ) := Real.sq_sqrt hS0
    have hx10 : (1:ℝ)/10 ≤ Real.sqrt (S:ℝ) := by
      rw [Real.le_sqrt (by norm_num) hS0]
      norm_num
      linarith
    have h1 : ((t:ℝ) * Real.sqrt (S:ℝ))^2 ≤ ((q:ℝ))^2 := by
      have : ((t:ℝ) * Real.sqrt (S:ℝ))^2 = (t:ℝ)^2 * (S:ℝ) := by
        rw [mul_pow, hx2]
      rw [this]
      exact hr
    have htx : (t:ℝ) * Real.sqrt (S:ℝ) ≤ (q:ℝ) := by
      have h2 := Real.sqrt_le_sqrt h1
      rwa [Real.sqrt_sq (by positivity), Real.sqrt_sq hqr] at h2
    have hlin : ((t:ℝ) - 1) * Real.sqrt (S:ℝ) ≤ (q:ℝ) - 1/10 := by
      have : ((t:ℝ) - 1) * Real.sqrt (S:ℝ) =
          (t:ℝ) * Real.sqrt (S:ℝ) - Real.sqrt (S:ℝ) := by ring
      rw [this]
      linarith
    have hnn : 0 ≤ ((t:ℝ) - 1) * Real.sqrt (S:ℝ) := by
      apply mul_nonneg
      · linarith
      · exact hx0
    have := pow_le_pow_left₀ hnn hlin 2
    calc ((t:ℝ) - 1)^2 * (S:ℝ) = (((t:ℝ) - 1) * Real.sqrt (S:ℝ))^2 := by
          rw [mul_pow, hx2]
      _ ≤ ((q:ℝ) - 1/10)^2 := this
  have hcast : (((t-1)^2 * S : ℚ) : ℝ) ≤ (((q - 1/10)^2 : ℚ) : ℝ) := by
    push_cast
    exact hgoal
  exact_mod_cast hcast

/-- The scale bound forces `q` to be at least one sub-step long. -/
theorem q_lower {t S q : ℚ} (ht : 1 ≤ t) (hS : 1/100 ≤ S) (hq : 0 ≤ q)
    (h : t^2 * S ≤ q^2) : 1/10 ≤ q := by
  have h1 : 1/100 ≤ q^2 := by nlinarith
  nlinarith

/-- Structure of the step computed by `calculate_delta_step`: the input delta
is a nonnegative multiple of the step, the step is nonzero, and either the
step is at least `MAX_STEP_LENGTH` long or the multiple is at most one. -/
theorem calculate_delta_step_inv (d : Vec2) (hd : d ≠ Vec2.zero) :
    ∃ t : ℚ, 0 ≤ t ∧ d = t • calculate_delta_step d ∧
      calculate_delta_step d ≠ Vec2.zero ∧
      (1/100 ≤ (calculate_delta_step d).lengthSq ∨ t ≤ 1) := by
  unfold calculate_delta_step MAX_STEP_LENGTH
  by_cases h : d.lengthSq ≤ (1:ℚ)/10 * (1/10)
  · rw [if_pos h]
    exact ⟨1, by norm_num, (Vec2.one_smul d).symm, hd, Or.inr le_rfl⟩
  · rw [if_neg h]
    have hL : (0:ℚ) < d.lengthSq := by
      have := lt_of_not_le h
      nlinarith [Vec2.lengthSq_nonneg d]
    have hs : 0 < ratSqrt d.lengthSq := ratSqrt_pos hL
    refine ⟨10 * ratSqrt d.lengthSq, by positivity, ?_, ?_, Or.inl ?_⟩
    · rw [Vec2.smul_smul]
      have hc : 10 * ratSqrt d.lengthSq * ((1:ℚ)/10 / ratSqrt d.lengthSq) = 1 := by
        field_simp
      rw [hc, Vec2.one_smul]
    · intro hcontra
      rcases (Vec2.smul_eq_zero_iff _ _).mp hcontra with hc | hc
      · have : (0:ℚ) < (1:ℚ)/10 / ratSqrt d.lengthSq := by positivity
        exact absurd hc this.ne'
      · exact hd hc
    · rw [Vec2.lengthSq_smul, div_pow, div_mul_eq_mul_div, le_div_iff₀ (by positivity)]
      have hs2 : ratSqrt d.lengthSq ^ 2 ≤ d.lengthSq := by
        rw [pow_two]
        exact ratSqrt_sq_le hL.le
      nlinarith [hs2]

end Platformer

namespace Platformer

theorem Vec2.zero_smul (v : Vec2) : (0:ℚ) • v = Vec2.zero := by
  cases v
  simp [Vec2.zero]

/-- Termination of the sweep: with fuel at least `10·q + 3`, where `q` bounds
the length of the remaining delta, the loop always reaches one of its normal
exits.  The invariant carried through the recursion: the remaining delta is a
nonnegative multiple `t` of the current step, the step is nonzero, and either
the step is at least `MAX_STEP_LENGTH` long (so every iteration strips at
least `1/10` off the remaining length) or `t ≤ 1` (so the sweep is within its
final sub-step). -/
theorem move_bodies_loop_total (is_colliding : Vec2 → Bool) :
    ∀ (n : ℕ) (position velocity to_move step : Vec2) (collisions : CollisionSide)
      (t q : ℚ),
      0 ≤ t → to_move = t • step → step ≠ Vec2.zero →
      (1/100 ≤ step.lengthSq ∨ t ≤ 1) →
      0 ≤ q → to_move.lengthSq ≤ q^2 → 10*q + 3 ≤ (n:ℚ) →
      move_bodies_loop is_colliding n position velocity to_move step collisions ≠ none := by
  intro n
  induction n with
  | zero =>
    intro p v tm s c t q ht0 htm hsnz hdisj hq0 hq hn
    exfalso
    push_cast at hn
    linarith
  | succ n ih =>
    intro p v tm s c t q ht0 htm hsnz hdisj hq0 hq hn
    have hS0 : 0 < s.lengthSq := Vec2.lengthSq_pos hsnz
    rw [move_bodies_loop]
    by_cases h1 : ¬ (s.lengthSq ≤ tm.lengthSq)
    · rw [if_pos h1]
      simp
    · rw [if_neg h1]
      push_neg at h1
      have htmS : tm.lengthSq = t^2 * s.lengthSq := by
        rw [htm, Vec2.lengthSq_smul]
      have ht2 : 1 ≤ t^2 := by
        have h' : 1 * s.lengthSq ≤ t^2 * s.lengthSq := by
          rw [one_mul, ← htmS]
          exact h1
        exact le_of_mul_le_mul_right h' hS0
      have ht1 : 1 ≤ t := by nlinarith
      have hq2 : t^2 * s.lengthSq ≤ q^2 := by
        rw [← htmS]
        exact hq
      have hn' : 10*(q - 1/10) + 3 ≤ (n:ℚ) := by
        push_cast at hn
        linarith
      have htm' : tm - s = (t - 1) • s := by
        rw [htm, Vec2.smul_sub_self]
      have hremx : (tm - s).x = (t-1) * s.x := by
        rw [htm']
        simp
      have hremy : (tm - s).y = (t-1) * s.y := by
        rw [htm']
        simp
      by_cases h2 : is_colliding (p + s) = true
      · rw [if_pos h2]
        by_cases h3 : (! is_colliding ⟨p.x, (p + s).y⟩) = true
        · rw [if_pos h3]
          by_cases h4 : (⟨0, (tm - s).y⟩ : Vec2) = Vec2.zero
          · rw [if_pos h4]
            simp
          · rw [if_neg h4]
            have hSS : 1/100 ≤ s.lengthSq := by
              rcases hdisj with hSS | htle
              · exact hSS
              · exfalso
                have hteq : t = 1 := le_antisymm htle ht1
                apply h4
                rw [Vec2.eq_zero_iff]
                refine ⟨rfl, ?_⟩
                rw [hremy, hteq]
                ring
            obtain ⟨t2, ht20, heq2, hnz2, hdisj2⟩ :=
              calculate_delta_step_inv ⟨0, (tm - s).y⟩ h4
            refine ih _ _ _ _ _ t2 (q - 1/10) ht20 heq2 hnz2 hdisj2
              (by linarith [q_lower ht1 hSS hq0 hq2]) ?_ hn'
            have hle1 : (⟨0, (tm - s).y⟩ : Vec2).lengthSq ≤ (t-1)^2 * s.lengthSq := by
              simp only [Vec2.lengthSq, hremy]
              nlinarith [sq_nonneg ((t-1) * s.x)]
            exact le_trans hle1 (step_decrease ht1 hSS hq0 hq2)
        · rw [if_neg h3]
          by_cases h5 : (! is_colliding ⟨p.x + s.x, p.y⟩) = true
          · rw [if_pos h5]
            by_cases h6 : (⟨(tm - s).x, 0⟩ : Vec2) = Vec2.zero
            · rw [if_pos h6]
              simp
            · rw [if_neg h6]
              have hSS : 1/100 ≤ s.lengthSq := by
                rcases hdisj with hSS | htle
                · exact hSS
                · exfalso
                  have hteq : t = 1 := le_antisymm htle ht1
                  apply h6
                  rw [Vec2.eq_zero_iff]
                  refine ⟨?_, rfl⟩
                  rw [hremx, hteq]
                  ring
              obtain ⟨t2, ht20, heq2, hnz2, hdisj2⟩ :=
                calculate_delta_step_inv ⟨(tm - s).x, 0⟩ h6
              refine ih _ _ _ _ _ t2 (q - 1/10) ht20 heq2 hnz2 hdisj2
                (by linarith [q_lower ht1 hSS hq0 hq2]) ?_ hn'
              have hle1 : (⟨(tm - s).x, 0⟩ : Vec2).lengthSq ≤ (t-1)^2 * s.lengthSq := by
                simp only [Vec2.lengthSq, hremx]
                nlinarith [sq_nonneg ((t-1) * s.y)]
              exact le_trans hle1 (step_decrease ht1 hSS hq0 hq2)
          · rw [if_neg h5]
            simp
      · rw [if_neg h2]
        rcases hdisj with hSS | htle
        · refine ih _ _ _ _ _ (t-1) (q - 1/10) (by linarith) htm' hsnz (Or.inl hSS)
            (by linarith [q_lower ht1 hSS hq0 hq2]) ?_ hn'
          rw [htm', Vec2.lengthSq_smul]
          exact step_decrease ht1 hSS hq0 hq2
        · have hteq : t = 1 := le_antisymm htle ht1
          have hrem0 : tm - s = Vec2.zero := by
            rw [htm', hteq]
            norm_num
            rfl
          have hqpos : 0 < q := by
            have htmpos : 0 < tm.lengthSq := by
              rw [htmS, hteq]
              simpa using hS0
            nlinarith
          have hn3 : (3:ℚ) ≤ (n:ℚ) := by
            have hlt : (3:ℚ) < (n:ℚ) + 1 := by
              push_cast at hn
              linarith
            have hlt2 : (3:ℕ) < n + 1 := by exact_mod_cast hlt
            have : (3:ℕ) ≤ n := by omega
            exact_mod_cast this
          refine ih _ _ _ _ _ 0 0 le_rfl ?_ hsnz (Or.inr (by norm_num)) le_rfl ?_ ?_
          · rw [hrem0]
            exact (Vec2.zero_smul s).symm
          · rw [hrem0]
            simp [Vec2.lengthSq, Vec2.zero]
          · norm_num
            exact_mod_cast hn3

/-- C6 — Mover termination: for every finite desired delta (any velocity and
delta-time), every collision predicate, and any length bound `q` on the
desired delta, the sub-stepping sweep completes within `10·q + 3` fuel —
on the order of `|delta| / MAX_STEP_LENGTH` iterations — and, being a total
function, never raises an error. -/
theorem move_bodies_terminates (is_colliding : Vec2 → Bool)
    (position velocity : Vec2) (delta_time q : ℚ) (n : ℕ) (hq0 : 0 ≤ q)
    (hq : (delta_time • velocity : Vec2).lengthSq ≤ q^2)
    (hn : 10*q + 3 ≤ (n:ℚ)) :
    move_bodies is_colliding n position velocity delta_time ≠ none := by
  unfold move_bodies
  by_cases h0 : (delta_time • velocity : Vec2).x = 0 ∧ (delta_time • velocity : Vec2).y = 0
  · rw [if_pos h0]
    simp
  · rw [if_neg h0]
    have hnz : (delta_time • velocity : Vec2) ≠ Vec2.zero := by
      intro hcontra
      exact h0 ((Vec2.eq_zero_iff _).mp hcontra)
    obtain ⟨t, ht0, heq, hnzstep, hdisj⟩ :=
      calculate_delta_step_inv (delta_time • velocity) hnz
    exact move_bodies_loop_total is_colliding n position velocity _ _ _ t q
      ht0 heq hnzstep hdisj hq0 hq hn

/-- Witness for C6 at a concrete input: velocity `(0, -1)`, `dt = 1`, delta
length bound `q = 1`, fuel `13`. -/
theorem move_bodies_terminates_witness :
    move_bodies (fun _ => false) 13 ⟨0, 0⟩ ⟨0, -1⟩ 1 ≠ none :=
  move_bodies_terminates (fun _ => false) ⟨0, 0⟩ ⟨0, -1⟩ 1 1 13 (by norm_num)
    (by norm_num [Vec2.lengthSq]) (by norm_num)

end Platformer

namespace Platformer

/-! ### The player state machine, `src/player.rs` -/

/-- `SlideSide` (`player.rs` lines 180-186). -/
inductive SlideSide where
  | Right
  | Left
deriving DecidableEq, Repr

/-- `State` (`player.rs` lines 188-199); the default is `Airborne`. -/
inductive State where
  | Grounded
  | Airborne
  | Sliding (side : SlideSide)
deriving DecidableEq, Repr

/-- `PlayerProperties` (`player.rs` lines 37-58).  Durations are rational
seconds; `jumps_available` is the `u32` count. -/
structure PlayerProperties where
  max_run_speed : ℚ
  terminal_speed : ℚ
  ground_acceleration : ℚ
  ground_decceleration : ℚ
  ground_direction_change_acceleration : ℚ
  air_acceleration : ℚ
  air_decceleration : ℚ
  air_direction_change_acceleration : ℚ
  gravity : ℚ
  jump_force : ℚ
  jump_gravity : ℚ
  coyote_time : ℚ
  jump_buffer_time : ℚ
  jumps_available : ℕ
  multijump_coefficient : ℚ
  wallslide_max_v_speed : Option ℚ
  can_walljump : Bool
  walljump_vertical_force : ℚ
  walljump_horizontal_force : ℚ
  dead_time_after_walljump : ℚ
deriving DecidableEq, Repr

/-- `PlayerProperties::default` (`player.rs` lines 60-85). -/
def default_properties : PlayerProperties where
  max_run_speed := 12
  ground_acceleration := 85
  ground_decceleration := 65
  ground_direction_change_acceleration := 85 + 40
  air_acceleration := 50
  air_decceleration := 20
  air_direction_change_acceleration := 100
  gravity := 100
  terminal_speed := 45
  jump_force := 22
  jump_gravity := 57
  coyote_time := 1/10
  jump_buffer_time := 3/20
  jumps_available := 2
  multijump_coefficient := 4/5
  wallslide_max_v_speed := some 15
  can_walljump := true
  walljump_vertical_force := 20
  walljump_horizontal_force := 10
  dead_time_after_walljump := 1/5

/-- The mutable `Player` component state read and written by `update_player`
(`player.rs` lines 212-225; the two side-sensor entity handles are kept
outside the model, see `set_player_state`). -/
structure Player where
  state : State
  properties : PlayerProperties
  pressed_jump : Bool
  can_jump : Bool
  jump_pressed_time : ℚ
  last_grounded_time : ℚ
  last_walljump_time : ℚ
  times_jumped_since_grounded : ℕ
deriving DecidableEq, Repr

/-- `f32::signum` for non-NaN inputs: `-1` for negatives, `1` otherwise
(`0.0_f32.signum() == 1.0`). -/
def fsignum (x : ℚ) : ℚ := if x < 0 then -1 else 1

/-- `f32::clamp(self, lo, hi)` (total model; the Rust version panics when
`lo > hi`, which never occurs at the use site where `lo = -hi`). -/
def rust_clamp (x lo hi : ℚ) : ℚ :=
  if x < lo then lo else if hi < x then hi else x

/-- Gravity application and terminal-speed clamp (`player.rs` lines
513-521). -/
def apply_gravity (props : PlayerProperties) (pressing_jump : Bool) (delta : ℚ)
    (velocity : Vec2) : Vec2 :=
  let vy1 := velocity.y -
    (if pressing_jump = true ∧ 0 < velocity.y then props.jump_gravity
     else props.gravity) * delta
  let vy2 := if props.terminal_speed < |vy1| then props.terminal_speed * fsignum vy1
    else vy1
  ⟨velocity.x, vy2⟩

/-- Wall-slide velocity clamp (`player.rs` lines 523-530):
`velocity.y.clamp(-wallslide_max_v_speed, wallslide_max_v_speed)` whenever
the state is `Sliding` and the cap is configured. -/
def wallslide_clamp (props : PlayerProperties) (st : State) (velocity : Vec2) : Vec2 :=
  match st with
  | State.Sliding _ =>
    match props.wallslide_max_v_speed with
    | some wallslide_max_v_speed =>
      ⟨velocity.x,
        rust_clamp velocity.y (-wallslide_max_v_speed) wallslide_max_v_speed⟩
    | none => velocity
  | _ => velocity

/-- The zero-input deceleration block (`player.rs` lines 540-547): move
`velocity.x` toward zero by `decceleration`, snapping to exactly `0` when the
speed does not exceed the decrement. -/
def decel_toward_zero (decceleration x : ℚ) : ℚ :=
  if decceleration < |x| then
    x + (if 0 < x then -decceleration else decceleration)
  else 0

/-- The horizontal acceleration/deceleration block (`player.rs` lines
532-571). -/
def horizontal_step (props : PlayerProperties) (st : State) (x_input : ℚ)
    (unpaused_time last_walljump_time delta : ℚ) (velocity : Vec2) : Vec2 :=
  if x_input = 0 then
    ⟨decel_toward_zero
        ((match st with
          | State.Grounded => props.ground_decceleration
          | State.Airborne => props.air_decceleration
          | State.Sliding _ => 0) * delta) velocity.x,
      velocity.y⟩
  else if last_walljump_time + props.dead_time_after_walljump < unpaused_time then
    let acceleration :=
      (if fsignum x_input ≠ fsignum velocity.x then
        match st with
        | State.Grounded => props.ground_direction_change_acceleration
        | _ => props.air_direction_change_acceleration
      else
        match st with
        | State.Grounded => props.ground_acceleration
        | _ => props.air_acceleration) * delta
    let vx1 := velocity.x + x_input * acceleration
    let vx2 := if props.max_run_speed < |vx1| then props.max_run_speed * fsignum vx1
      else vx1
    ⟨vx2, velocity.y⟩
  else velocity

/-- Grounded/coyote-time jump bookkeeping (`player.rs` lines 573-593).
`time_since_startup` models `time.time_since_startup()` (used for
`last_grounded_time`), `unpaused_time` models `gameplay_time.elapsed()`. -/
def jump_bookkeeping (time_since_startup unpaused_time : ℚ) (p : Player) : Player :=
  match p.state with
  | State.Grounded =>
    let p1 := if 0 < p.properties.jumps_available then { p with can_jump := true } else p
    { p1 with times_jumped_since_grounded := 0,
              last_grounded_time := time_since_startup }
  | State.Airborne =>
    if p.times_jumped_since_grounded = 0 ∧
        p.last_grounded_time + p.properties.coyote_time < unpaused_time then
      if p.properties.jumps_available = 1 then { p with can_jump := false }
      else { p with times_jumped_since_grounded := p.times_jumped_since_grounded + 1 }
    else p
  | State.Sliding _ => p

/-- Jump / wall-jump execution and jump-buffer expiry (`player.rs` lines
595-629). -/
def handle_jump (unpaused_time : ℚ) (p : Player) (velocity : Vec2) : Player × Vec2 :=
  if p.pressed_jump then
    let pv :=
      match p.properties.can_walljump, p.state with
      | true, State.Sliding side =>
        ({ p with pressed_jump := false, last_walljump_time := unpaused_time },
          (⟨match side with
            | SlideSide.Left => p.properties.walljump_horizontal_force
            | SlideSide.Right => -p.properties.walljump_horizontal_force,
            p.properties.walljump_vertical_force⟩ : Vec2))
      | _, _ =>
        if p.can_jump then
          ({ p with pressed_jump := false,
                    times_jumped_since_grounded := p.times_jumped_since_grounded + 1,
                    can_jump :=
                      if p.properties.jumps_available ≤ p.times_jumped_since_grounded + 1
                      then false else p.can_jump },
            (⟨velocity.x,
              p.properties.jump_force *
                p.properties.multijump_coefficient ^ p.times_jumped_since_grounded⟩ : Vec2))
        else (p, velocity)
    if pv.1.jump_pressed_time + pv.1.properties.jump_buffer_time < unpaused_time then
      ({ pv.1 with pressed_jump := false }, pv.2)
    else pv
  else (p, velocity)

/-- `update_player` (`player.rs` lines 491-630): gravity, wall-slide clamp,
horizontal movement, jump bookkeeping and jump execution, in source order.
The `body.pass_through_platforms` write (line 509) touches a field that does
not exist on the `KinematicBody` of `physics.rs` and is outside the modelled
state.  Returns the updated `Player` and the velocity handed to the mover. -/
def update_player (delta unpaused_time time_since_startup x_input : ℚ)
    (pressing_down pressing_jump_raw : Bool) (p : Player) (velocity : Vec2) :
    Player × Vec2 :=
  let pressing_jump := !pressing_down && pressing_jump_raw
  let v1 := apply_gravity p.properties pressing_jump delta velocity
  let v2 := wallslide_clamp p.properties p.state v1
  let v3 := horizontal_step p.properties p.state x_input unpaused_time
    p.last_walljump_time delta v2
  let p1 := jump_bookkeeping time_since_startup unpaused_time p
  handle_jump unpaused_time p1 v3

end Platformer

namespace Platformer

/-! ### C3/C4 plumbing lemmas -/

theorem apply_gravity_x (props : PlayerProperties) (pj : Bool) (delta : ℚ)
    (velocity : Vec2) : (apply_gravity props pj delta velocity).x = velocity.x := rfl

theorem wallslide_clamp_x (props : PlayerProperties) (st : State) (velocity : Vec2) :
    (wallslide_clamp props st velocity).x = velocity.x := by
  unfold wallslide_clamp
  cases st <;> try rfl
  cases props.wallslide_max_v_speed <;> rfl

theorem horizontal_step_y (props : PlayerProperties) (st : State) (x_input : ℚ)
    (unpaused_time last_walljump_time delta : ℚ) (velocity : Vec2) :
    (horizontal_step props st x_input unpaused_time last_walljump_time delta
      velocity).y = velocity.y := by
  unfold horizontal_step
  split_ifs <;> rfl

theorem jump_bookkeeping_pressed (time_since_startup unpaused_time : ℚ) (p : Player) :
    (jump_bookkeeping time_since_startup unpaused_time p).pressed_jump =
      p.pressed_jump := by
  unfold jump_bookkeeping
  cases hst : p.state with
  | Grounded => split_ifs <;> rfl
  | Airborne => split_ifs <;> rfl
  | Sliding side => rfl

theorem handle_jump_not_pressed {unpaused_time : ℚ} {p : Player} {velocity : Vec2}
    (h : p.pressed_jump = false) :
    handle_jump unpaused_time p velocity = (p, velocity) := by
  unfold handle_jump
  rw [if_neg (by simp [h])]

/-! ### C3: the wall-slide speed cap clamps both directions -/

/-- Amended C3 — whenever the state is `Sliding` and
`wallslide_max_v_speed = some m`, the velocity handed to the mover has its
`y` component equal to the post-gravity `y` clamped symmetrically into
`[-m, m]`: the cap applies in the falling direction *and* to the ascending
component alike. -/
theorem update_player_wallslide_clamp (delta unpaused_time time_since_startup
      x_input : ℚ) (pressing_down pressing_jump_raw : Bool) (p : Player)
    (velocity : Vec2) (side : SlideSide) (m : ℚ)
    (hstate : p.state = State.Sliding side)
    (hm : p.properties.wallslide_max_v_speed = some m)
    (hpj : p.pressed_jump = false) :
    (update_player delta unpaused_time time_since_startup x_input pressing_down
        pressing_jump_raw p velocity).2.y =
      rust_clamp
        (apply_gravity p.properties (!pressing_down && pressing_jump_raw) delta
          velocity).y (-m) m := by
  have hp1 : (jump_bookkeeping time_since_startup unpaused_time p).pressed_jump =
      false := by
    rw [jump_bookkeeping_pressed]
    exact hpj
  simp only [update_player]
  rw [handle_jump_not_pressed hp1]
  simp only [horizontal_step_y, hstate, wallslide_clamp, hm]

/-- A player sliding against a left wall, with the default tuning
(`wallslide_max_v_speed = 15`). -/
def sliding_player : Player where
  state := State.Sliding SlideSide.Left
  properties := default_properties
  pressed_jump := false
  can_jump := true
  jump_pressed_time := 0
  last_grounded_time := 0
  last_walljump_time := 0
  times_jumped_since_grounded := 0

/-- Witness for the amended C3 at a concrete falling input. -/
theorem update_player_wallslide_clamp_witness :
    (update_player (1/100) 0 0 0 false false sliding_player ⟨0, -41⟩).2.y =
      rust_clamp
        (apply_gravity sliding_player.properties (!false && false) (1/100)
          ⟨0, -41⟩).y (-(15:ℚ)) 15 :=
  update_player_wallslide_clamp (1/100) 0 0 0 false false sliding_player ⟨0, -41⟩
    SlideSide.Left 15 rfl rfl rfl

/-- Counterexample to C3 as stated: a `Sliding` player whose post-gravity
velocity is 40 *upward* (ascending) leaves the tick with `velocity.y = 15`,
not 40 — the clamp also reduces the ascending component, not only the
falling one. -/
theorem update_player_wallslide_ascending_cex :
    (update_player (1/100) 0 0 0 false false sliding_player ⟨0, 41⟩).2.y = 15 ∧
    (15:ℚ) ≠ 40 := by
  constructor
  · norm_num [update_player, apply_gravity, wallslide_clamp, horizontal_step,
      decel_toward_zero, jump_bookkeeping, handle_jump, sliding_player,
      default_properties, fsignum, rust_clamp, abs_of_pos, abs_of_nonneg]
  · norm_num

end Platformer

namespace Platformer

/-! ### C4: horizontal deceleration at zero input -/

theorem decel_toward_zero_zero (z : ℚ) : decel_toward_zero 0 z = z := by
  unfold decel_toward_zero
  by_cases h : (0:ℚ) < |z|
  · rw [if_pos h]
    split_ifs <;> ring
  · rw [if_neg h]
    have h0 : |z| = 0 := le_antisymm (not_lt.mp h) (abs_nonneg z)
    exact (abs_eq_zero.mp h0).symm

/-- Quantitative behaviour of the zero-input deceleration block: with a
nonnegative decrement it reduces the speed by exactly the decrement without
changing the sign, and snaps to `0` when the speed does not exceed the
decrement. -/
theorem decel_toward_zero_spec (d z : ℚ) (hd : 0 ≤ d) :
    (d < |z| → |decel_toward_zero d z| = |z| - d ∧ 0 ≤ decel_toward_zero d z * z) ∧
    (¬ d < |z| → decel_toward_zero d z = 0) := by
  constructor
  · intro h
    unfold decel_toward_zero
    rw [if_pos h]
    by_cases hz : 0 < z
    · rw [if_pos hz]
      have hzz : |z| = z := abs_of_pos hz
      rw [hzz] at h ⊢
      have hpos : 0 < z + -d := by linarith
      rw [abs_of_pos hpos]
      constructor
      · ring
      · nlinarith
    · rw [if_neg hz]
      have hz2 : z ≤ 0 := not_lt.mp hz
      have hzz : |z| = -z := abs_of_nonpos hz2
      rw [hzz] at h ⊢
      have hneg : z + d < 0 := by linarith
      rw [abs_of_neg hneg]
      constructor
      · ring
      · nlinarith
  · intro h
    unfold decel_toward_zero
    rw [if_neg h]

/-- Amended C4 — on a tick with zero horizontal input (and no pending jump,
so no wall-jump impulse interferes), the horizontal velocity handed to the
mover is: decelerated by `ground_decceleration * delta` when `Grounded`,
by `air_decceleration * delta` when `Airborne`, and *unchanged* when
`Sliding` (the source uses a decceleration of `0.` for `Sliding`, not
`air_decceleration`).  The final conjunct is the never-overshoot property of
the deceleration block. -/
theorem update_player_deceleration (delta unpaused_time time_since_startup
      x_input : ℚ) (pressing_down pressing_jump_raw : Bool) (p : Player)
    (velocity : Vec2) (hx : x_input = 0) (hpj : p.pressed_jump = false) :
    ((p.state = State.Grounded →
        (update_player delta unpaused_time time_since_startup x_input pressing_down
          pressing_jump_raw p velocity).2.x =
          decel_toward_zero (p.properties.ground_decceleration * delta) velocity.x) ∧
      (p.state = State.Airborne →
        (update_player delta unpaused_time time_since_startup x_input pressing_down
          pressing_jump_raw p velocity).2.x =
          decel_toward_zero (p.properties.air_decceleration * delta) velocity.x) ∧
      (∀ side, p.state = State.Sliding side →
        (update_player delta unpaused_time time_since_startup x_input pressing_down
          pressing_jump_raw p velocity).2.x = velocity.x) ∧
      (∀ d z : ℚ, 0 ≤ d →
        (d < |z| → |decel_toward_zero d z| = |z| - d ∧
          0 ≤ decel_toward_zero d z * z) ∧
        (¬ d < |z| → decel_toward_zero d z = 0))) := by
  subst hx
  have hp1 : (jump_bookkeeping time_since_startup unpaused_time p).pressed_jump =
      false := by
    rw [jump_bookkeeping_pressed]
    exact hpj
  have hrx : (update_player delta unpaused_time time_since_startup 0 pressing_down
      pressing_jump_raw p velocity).2.x =
      decel_toward_zero
        ((match p.state with
          | State.Grounded => p.properties.ground_decceleration
          | State.Airborne => p.properties.air_decceleration
          | State.Sliding _ => 0) * delta) velocity.x := by
    simp only [update_player]
    rw [handle_jump_not_pressed hp1]
    simp only [horizontal_step, if_true]
    simp only [wallslide_clamp_x, apply_gravity_x]
  refine ⟨?_, ?_, ?_, fun d z hd => decel_toward_zero_spec d z hd⟩
  · intro hst
    rw [hrx, hst]
  · intro hst
    rw [hrx, hst]
  · intro side hst
    rw [hrx, hst]
    rw [zero_mul, decel_toward_zero_zero]

/-- A grounded player with the default tuning. -/
def grounded_player : Player where
  state := State.Grounded
  properties := default_properties
  pressed_jump := false
  can_jump := true
  jump_pressed_time := 0
  last_grounded_time := 0
  last_walljump_time := 0
  times_jumped_since_grounded := 0

/-- Witness for the amended C4: a grounded player running at `7` decelerates
by `ground_decceleration * delta`. -/
theorem update_player_deceleration_witness :
    (update_player 1 0 0 0 false false grounded_player ⟨7, 0⟩).2.x =
      decel_toward_zero (grounded_player.properties.ground_decceleration * 1)
        ((⟨7, 0⟩ : Vec2)).x :=
  (update_player_deceleration 1 0 0 0 false false grounded_player ⟨7, 0⟩ rfl rfl).1 rfl

/-- Counterexample to C4 as stated: a `Sliding` player with `velocity.x = 5`,
zero input, `air_decceleration = 20`, `delta = 1/60` keeps `velocity.x = 5`
— it is not decelerated by `air_decceleration * delta = 1/3` as the claim
requires for the Sliding state. -/
theorem update_player_sliding_no_decel_cex :
    (update_player (1/60) 0 0 0 false false sliding_player ⟨5, 0⟩).2.x = 5 ∧
    (5:ℚ) ≠ 5 - 20 * (1/60) := by
  constructor
  · norm_num [update_player, apply_gravity, wallslide_clamp, horizontal_step,
      decel_toward_zero, jump_bookkeeping, handle_jump, sliding_player,
      default_properties, fsignum, rust_clamp, abs_of_pos, abs_of_nonneg,
      abs_of_nonpos]
  · norm_num

end Platformer

namespace Platformer

/-! ### C7: multi-jump geometric falloff -/

/-- C7 — when a buffered jump is consumed through the non-wall-jump branch
(`can_jump` true, and the wall-jump arm not taken), the vertical velocity is
set to `jump_force * multijump_coefficient ^ n` with
`n = times_jumped_since_grounded` at the moment of the jump, the counter is
incremented, `can_jump` turns false exactly when `jumps_available` does not
exceed the incremented counter, and the pending-jump flag is cleared. -/
theorem handle_jump_multijump (unpaused_time : ℚ) (p : Player) (velocity : Vec2)
    (hpj : p.pressed_jump = true) (hcj : p.can_jump = true)
    (hbr : p.properties.can_walljump = false ∨ ∀ side, p.state ≠ State.Sliding side)
    (hn : p.times_jumped_since_grounded < p.properties.jumps_available) :
    (handle_jump unpaused_time p velocity).2.y =
      p.properties.jump_force *
        p.properties.multijump_coefficient ^ p.times_jumped_since_grounded ∧
    (handle_jump unpaused_time p velocity).1.times_jumped_since_grounded =
      p.times_jumped_since_grounded + 1 ∧
    ((handle_jump unpaused_time p velocity).1.can_jump = false ↔
      p.properties.jumps_available ≤ p.times_jumped_since_grounded + 1) ∧
    (handle_jump unpaused_time p velocity).1.pressed_jump = false := by
  have harm : handle_jump unpaused_time p velocity =
      (({ p with
            pressed_jump := false,
            times_jumped_since_grounded := p.times_jumped_since_grounded + 1,
            can_jump :=
              if p.properties.jumps_available ≤ p.times_jumped_since_grounded + 1
              then false else p.can_jump } : Player),
        (⟨velocity.x, p.properties.jump_force *
          p.properties.multijump_coefficient ^
            p.times_jumped_since_grounded⟩ : Vec2)) := by
    unfold handle_jump
    rw [if_pos hpj]
    rcases hbr with hw | hs
    · rw [hw]
      cases hst : p.state <;> (dsimp only []; rw [if_pos hcj]; split_ifs <;> rfl)
    · cases hst : p.state with
      | Grounded =>
        cases hb : p.properties.can_walljump <;>
          (dsimp only []; rw [if_pos hcj]; split_ifs <;> rfl)
      | Airborne =>
        cases hb : p.properties.can_walljump <;>
          (dsimp only []; rw [if_pos hcj]; split_ifs <;> rfl)
      | Sliding side => exact absurd hst (hs side)
  rw [harm]
  refine ⟨rfl, rfl, ?_, rfl⟩
  split_ifs with hj
  · simp [hj]
  · rw [hcj]
    simp [hj]

/-- An airborne player with one jump already used from the default two. -/
def airborne_jumper : Player where
  state := State.Airborne
  properties := default_properties
  pressed_jump := true
  can_jump := true
  jump_pressed_time := 0
  last_grounded_time := 0
  last_walljump_time := 0
  times_jumped_since_grounded := 1

/-- Witness for C7 at a concrete input: the second jump of a double jump. -/
theorem handle_jump_multijump_witness :
    (handle_jump 0 airborne_jumper ⟨0, 0⟩).2.y =
      airborne_jumper.properties.jump_force *
        airborne_jumper.properties.multijump_coefficient ^
          airborne_jumper.times_jumped_since_grounded ∧
    (handle_jump 0 airborne_jumper ⟨0, 0⟩).1.times_jumped_since_grounded =
      airborne_jumper.times_jumped_since_grounded + 1 ∧
    ((handle_jump 0 airborne_jumper ⟨0, 0⟩).1.can_jump = false ↔
      airborne_jumper.properties.jumps_available ≤
        airborne_jumper.times_jumped_since_grounded + 1) ∧
    (handle_jump 0 airborne_jumper ⟨0, 0⟩).1.pressed_jump = false :=
  handle_jump_multijump 0 airborne_jumper ⟨0, 0⟩ rfl rfl
    (Or.inr (fun side h => by simp [airborne_jumper] at h))
    (by norm_num [airborne_jumper, default_properties])

/-! ### C8: the player state transition ignores velocity -/

/-- `set_player_state` (`player.rs` lines 632-655): `Grounded` when the mover
reported a DOWN collision, else `Sliding` by the side sensors, else
`Airborne`.  `left_sensor_world` / `right_sensor_world` model the sensors'
world-overlap readings (`sensors.get(...).unwrap().world`; the `SensedBodies`
struct in this snapshot of `physics.rs` lacks that field, so the reading is
an input here).  Note the new state depends only on these three inputs — in
particular not on the body's velocity. -/
def set_player_state (collisions : CollisionSide)
    (left_sensor_world right_sensor_world : Bool) (p : Player) : Player :=
  if collisions.down then { p with state := State.Grounded }
  else if left_sensor_world then { p with state := State.Sliding SlideSide.Left }
  else if right_sensor_world then { p with state := State.Sliding SlideSide.Right }
  else { p with state := State.Airborne }

/-- Amended C8 — there is no velocity-based push-off override: a player that
was `Sliding{Left}` keeps the `Sliding{Left}` state whenever the left sensor
still overlaps the wall and no DOWN collision occurred, even when the
horizontal velocity points away from the wall (`0 < velocity.x`). -/
theorem set_player_state_no_pushoff (velocity : Vec2) (hpush : 0 < velocity.x)
    (p : Player) (hp : p.state = State.Sliding SlideSide.Left) (rs : Bool) :
    (set_player_state CollisionSide.empty true rs p).state =
      State.Sliding SlideSide.Left ∧
    (set_player_state CollisionSide.empty true rs p).state ≠ State.Airborne := by
  constructor <;> simp [set_player_state, CollisionSide.empty]

/-- Witness for the amended C8 at a concrete input. -/
theorem set_player_state_no_pushoff_witness :
    (set_player_state CollisionSide.empty true false sliding_player).state =
      State.Sliding SlideSide.Left ∧
    (set_player_state CollisionSide.empty true false sliding_player).state ≠
      State.Airborne :=
  set_player_state_no_pushoff ⟨5, 0⟩ (by norm_num) sliding_player rfl false

/-- Counterexample to C8 as stated: a previously `Sliding{Left}` player (its
horizontal velocity now `5`, pointing away from the left wall) is *not*
forced to `Airborne` — with the left sensor still overlapping, the new state
is again `Sliding{Left}`.  The transition function does not consult the
velocity at all. -/
theorem set_player_state_pushoff_cex :
    (set_player_state CollisionSide.empty true false sliding_player).state ≠
      State.Airborne ∧
    (set_player_state CollisionSide.empty true false sliding_player).state =
      State.Sliding SlideSide.Left ∧
    sliding_player.state = State.Sliding SlideSide.Left := by
  refine ⟨?_, ?_, rfl⟩ <;> simp [set_player_state, CollisionSide.empty]

end Platformer

namespace Platformer

/-! ### The trigger-record input layer, `src/input_mapper.rs` /
`src/input_binding.rs` -/

/-- `DigitalTrigger` (`input_mapper.rs` lines 30-35); the device codes
(`KeyCode`, `MouseButton`, `GamepadButton`) are modelled as naturals. -/
inductive DigitalTrigger where
  | Key (key_code : ℕ)
  | MouseButton (button : ℕ)
  | GamepadButton (button : ℕ)
deriving DecidableEq, Repr

/-- `TriggerRecord` (`input_mapper.rs` lines 81-88): three sets of digital
triggers plus the last-read analog values (`GamepadAxis` modelled as ℕ,
`AxisState` as ℚ). -/
structure TriggerRecord where
  just_pressed : Finset DigitalTrigger
  held : Finset DigitalTrigger
  just_released : Finset DigitalTrigger
  axis_values : ℕ → Option ℚ

/-- The default (empty) record. -/
def TriggerRecord.empty : TriggerRecord := ⟨∅, ∅, ∅, fun _ => none⟩

/-- `TriggerRecord::press` (`input_mapper.rs` lines 121-125): insert into
`just_pressed` only when the trigger is not already held. -/
def TriggerRecord.press (r : TriggerRecord) (trigger : DigitalTrigger) :
    TriggerRecord :=
  if trigger ∈ r.held then r
  else { r with just_pressed := insert trigger r.just_pressed }

/-- The retain predicate of `TriggerRecord::release` (`input_mapper.rs`
lines 128-131): `Key` entries are compared by key code only; other triggers
by full equality. -/
def retain_after_release (x trigger : DigitalTrigger) : Bool :=
  match x, trigger with
  | DigitalTrigger.Key l_key, DigitalTrigger.Key r_key => l_key != r_key
  | _, _ => x != trigger

/-- `TriggerRecord::release` (`input_mapper.rs` lines 127-133). -/
def TriggerRecord.release (r : TriggerRecord) (trigger : DigitalTrigger) :
    TriggerRecord :=
  { r with
    held := r.held.filter (fun x => retain_after_release x trigger = true),
    just_released := insert trigger r.just_released }

/-- `TriggerRecord::update_gamepad_button` (`input_mapper.rs` lines 91-108);
`press_setting` / `release_setting` are `settings.press` and
`settings.release`. -/
def TriggerRecord.update_gamepad_button (r : TriggerRecord) (b : ℕ)
    (state press_setting release_setting : ℚ) : TriggerRecord :=
  if press_setting < state then
    if DigitalTrigger.GamepadButton b ∈ r.held then r
    else r.press (DigitalTrigger.GamepadButton b)
  else if state < release_setting then
    if DigitalTrigger.GamepadButton b ∈ r.held then
      r.release (DigitalTrigger.GamepadButton b)
    else r
  else r

/-- `TriggerRecord::update_gamepad_axis` (`input_mapper.rs` lines 110-119). -/
def TriggerRecord.update_gamepad_axis (r : TriggerRecord) (a : ℕ)
    (state positive_high negative_high negative_low positive_low : ℚ) :
    TriggerRecord :=
  let val : ℚ :=
    if positive_high < state then 1
    else if state < negative_high then -1
    else if negative_low < state ∧ state < positive_low then 0
    else state
  { r with axis_values := fun g => if g = a then some val else r.axis_values g }

/-- `TriggerRecord::finish_frame` (`input_mapper.rs` lines 136-139): move
`just_pressed` into `held` and clear `just_released`. -/
def TriggerRecord.finish_frame (r : TriggerRecord) : TriggerRecord :=
  { r with held := r.held ∪ r.just_pressed, just_pressed := ∅,
           just_released := ∅ }

/-- The raw-event operations that mutate a `TriggerRecord` during a frame. -/
inductive TriggerOp where
  | press (trigger : DigitalTrigger)
  | release (trigger : DigitalTrigger)
  | gamepad_button (b : ℕ) (state press_setting release_setting : ℚ)
  | gamepad_axis (a : ℕ)
      (state positive_high negative_high negative_low positive_low : ℚ)
  | finish_frame

def apply_op (r : TriggerRecord) (op : TriggerOp) : TriggerRecord :=
  match op with
  | TriggerOp.press t => r.press t
  | TriggerOp.release t => r.release t
  | TriggerOp.gamepad_button b s ps rs => r.update_gamepad_button b s ps rs
  | TriggerOp.gamepad_axis a s ph nh nl pl => r.update_gamepad_axis a s ph nh nl pl
  | TriggerOp.finish_frame => r.finish_frame

/-- A sequence of raw-event operations applied to the empty record. -/
def run_ops (ops : List TriggerOp) : TriggerRecord :=
  ops.foldl apply_op TriggerRecord.empty

theorem press_disjoint (r : TriggerRecord) (t0 : DigitalTrigger)
    (h : ∀ t, ¬ (t ∈ r.held ∧ t ∈ r.just_pressed)) :
    ∀ t, ¬ (t ∈ (r.press t0).held ∧ t ∈ (r.press t0).just_pressed) := by
  intro t
  unfold TriggerRecord.press
  split_ifs with hmem
  · exact h t
  · rintro ⟨h1, h2⟩
    rcases Finset.mem_insert.mp h2 with h2 | h2
    · subst h2
      exact hmem h1
    · exact h t ⟨h1, h2⟩

theorem release_disjoint (r : TriggerRecord) (t0 : DigitalTrigger)
    (h : ∀ t, ¬ (t ∈ r.held ∧ t ∈ r.just_pressed)) :
    ∀ t, ¬ (t ∈ (r.release t0).held ∧ t ∈ (r.release t0).just_pressed) := by
  intro t
  unfold TriggerRecord.release
  rintro ⟨h1, h2⟩
  exact h t ⟨(Finset.mem_filter.mp h1).1, h2⟩

theorem apply_op_disjoint (r : TriggerRecord) (op : TriggerOp)
    (h : ∀ t, ¬ (t ∈ r.held ∧ t ∈ r.just_pressed)) :
    ∀ t, ¬ (t ∈ (apply_op r op).held ∧ t ∈ (apply_op r op).just_pressed) := by
  cases op with
  | press t0 => exact press_disjoint r t0 h
  | release t0 => exact release_disjoint r t0 h
  | gamepad_button b s ps rs =>
    dsimp only [apply_op]
    unfold TriggerRecord.update_gamepad_button
    split_ifs with h1 h2 h3 h4 <;>
      first
        | exact h
        | exact press_disjoint r _ h
        | exact release_disjoint r _ h
  | gamepad_axis a s ph nh nl pl =>
    dsimp only [apply_op]
    unfold TriggerRecord.update_gamepad_axis
    exact h
  | finish_frame =>
    intro t
    dsimp only [apply_op]
    unfold TriggerRecord.finish_frame
    rintro ⟨h1, h2⟩
    exact absurd h2 (Finset.not_mem_empty t)

/-- C9 — `TriggerRecord` disjointness invariant: starting from the empty
record, no sequence of press / release / gamepad-button / gamepad-axis /
frame-rotation operations ever leaves a trigger in `held` and `just_pressed`
simultaneously; `press` inserts into `just_pressed` only when the trigger is
not held; `finish_frame` moves every `just_pressed` entry into `held` and
clears `just_released`. -/
theorem trigger_record_invariant :
    (∀ (ops : List TriggerOp) (t : DigitalTrigger),
        ¬ (t ∈ (run_ops ops).held ∧ t ∈ (run_ops ops).just_pressed)) ∧
    (∀ (r : TriggerRecord) (t : DigitalTrigger),
        (t ∈ r.held → (r.press t).just_pressed = r.just_pressed) ∧
        (t ∉ r.held → (r.press t).just_pressed = insert t r.just_pressed)) ∧
    (∀ r : TriggerRecord,
        r.finish_frame.held = r.held ∪ r.just_pressed ∧
        r.finish_frame.just_pressed = ∅ ∧
        r.finish_frame.just_released = ∅) := by
  refine ⟨?_, ?_, ?_⟩
  · have main : ∀ (ops : List TriggerOp) (r : TriggerRecord),
        (∀ t, ¬ (t ∈ r.held ∧ t ∈ r.just_pressed)) →
        ∀ t, ¬ (t ∈ (ops.foldl apply_op r).held ∧
          t ∈ (ops.foldl apply_op r).just_pressed) := by
      intro ops
      induction ops with
      | nil => intro r h; exact h
      | cons op rest ih =>
        intro r h
        exact ih (apply_op r op) (apply_op_disjoint r op h)
    intro ops
    exact main ops TriggerRecord.empty
      (by
        intro t
        rintro ⟨h1, _⟩
        exact absurd h1 (Finset.not_mem_empty t))
  · intro r t
    constructor
    · intro hmem
      unfold TriggerRecord.press
      rw [if_pos hmem]
    · intro hmem
      unfold TriggerRecord.press
      rw [if_neg hmem]
  · intro r
    exact ⟨rfl, rfl, rfl⟩

/-- Witness for C9: pressing a key not yet held inserts it into
`just_pressed`. -/
theorem trigger_record_invariant_witness :
    (TriggerRecord.empty.press (DigitalTrigger.Key 1)).just_pressed =
      insert (DigitalTrigger.Key 1) TriggerRecord.empty.just_pressed :=
  (trigger_record_invariant.2.1 TriggerRecord.empty (DigitalTrigger.Key 1)).2
    (by simp [TriggerRecord.empty])

end Platformer

namespace Platformer

/-! ### C10: primary/secondary action combination is a maximum -/

/-- `ActionState` (`input_mapper.rs` lines 52-58), with the derived Rust
`Ord` given by declaration order: `Released < JustReleased < JustPressed <
Held`. -/
inductive ActionState where
  | Released
  | JustReleased
  | JustPressed
  | Held
deriving DecidableEq, Repr

/-- The discriminant underlying the derived `Ord`. -/
def ActionState.toNat : ActionState → ℕ
  | ActionState.Released => 0
  | ActionState.JustReleased => 1
  | ActionState.JustPressed => 2
  | ActionState.Held => 3

/-- Rust's `Ord::max`: returns `self` when `self > other`, else `other`. -/
def ActionState.max (a b : ActionState) : ActionState :=
  if b.toNat < a.toNat then a else b

/-- `TriggerRecord::digital_trigger_state` (`input_mapper.rs` lines
141-151). -/
def TriggerRecord.digital_trigger_state (r : TriggerRecord)
    (trigger : DigitalTrigger) : ActionState :=
  if trigger ∈ r.held then ActionState.Held
  else if trigger ∈ r.just_pressed then ActionState.JustPressed
  else if trigger ∈ r.just_released then ActionState.JustReleased
  else ActionState.Released

/-- `ActionBinding` (`input_mapper.rs` lines 177-181). -/
structure ActionBinding where
  primary : DigitalTrigger
  secondary : Option DigitalTrigger
deriving DecidableEq, Repr

/-- The per-action combination performed by `upload_input`
(`input_mapper.rs` lines 290-305) and identically by
`InputBinder::action_value` (`input_binding.rs` lines 262-277): the primary
trigger state, `max`-combined with the secondary trigger state when a
secondary binding exists. -/
def action_value (r : TriggerRecord) (bindings : ActionBinding) : ActionState :=
  match bindings.secondary.map (fun secondary => r.digital_trigger_state secondary) with
  | some secondary => (r.digital_trigger_state bindings.primary).max secondary
  | none => r.digital_trigger_state bindings.primary

/-- A record in which the `Key 2` trigger was just pressed this frame while
the `Key 3` trigger is held from an earlier frame. -/
def masking_record : TriggerRecord :=
  ⟨{DigitalTrigger.Key 2}, {DigitalTrigger.Key 3}, ∅, fun _ => none⟩

/-- C10 — with both bindings present the delivered action state is the
maximum of the two trigger states under the total order
`Released < JustReleased < JustPressed < Held` (not a first-defined
fallback); in particular a `Held` secondary masks a `JustPressed` primary,
so the secondary is consulted even when the primary is non-`Released`. -/
theorem action_value_is_max :
    (∀ (r : TriggerRecord) (p s : DigitalTrigger),
        action_value r ⟨p, some s⟩ =
          (r.digital_trigger_state p).max (r.digital_trigger_state s)) ∧
    (∀ a b : ActionState,
        (a.max b).toNat = Nat.max a.toNat b.toNat ∧ (a.max b = a ∨ a.max b = b)) ∧
    ActionState.JustPressed.max ActionState.Held = ActionState.Held ∧
    (ActionState.Released.toNat < ActionState.JustReleased.toNat ∧
      ActionState.JustReleased.toNat < ActionState.JustPressed.toNat ∧
      ActionState.JustPressed.toNat < ActionState.Held.toNat) ∧
    action_value masking_record
      ⟨DigitalTrigger.Key 2, some (DigitalTrigger.Key 3)⟩ = ActionState.Held := by
  refine ⟨?_, ?_, by decide, by decide, ?_⟩
  · intro r p s
    rfl
  · intro a b
    cases a <;> cases b <;> exact ⟨by decide, by decide⟩
  · simp [action_value, masking_record, TriggerRecord.digital_trigger_state,
      ActionState.max, ActionState.toNat]

end Platformer
